import Mathlib

set_option linter.unusedVariables false

/-!
Verification of the row-grouping and emission pipeline of
`survey_creation/creating_survey.py` (class `surveyCreation`), against its
natural-language specification.  The Python functions are shallowly embedded
as Lean functions; generator state is threaded explicitly, exceptions become
`Except`, file/config access is a parameter.
-/

/-- An input row of the survey definition CSV (one question per row, as
yielded by `read_survey_file`).  `sect` models the `section` column already
parsed as a number (the Python applies `int(...)` at use sites); the
remaining fields are the string cells the pipeline reads.  `question` is the
base-language text column and `lang_trans` holds the translation columns
`lang_trans1`, `lang_trans2`, ... in order. -/
structure Row where
  sect : Nat
  code : String
  answer_format : String
  condition : String
  answer_file : String
  other : String
  random : String
  question : String
  lang_trans : List String

deriving instance DecidableEq for Row

instance : Inhabited Row := ⟨⟨0, "", "", "", "", "", "", "", []⟩⟩

/-- Python `str.lower` on the character list (a computable stand-in for
`String.toLower`, whose core implementation does not kernel-reduce). -/
def toLowerStr (s : String) : String := String.mk (s.data.map Char.toLower)

/-- The `code` projection used by `group_likert` (every digit character of
`q` at key `code` filtered out and the rest joined back together): the code
with every digit character removed. -/
def stripDigits (s : String) : String :=
  String.mk (s.toList.filter (fun i => !i.isDigit))

/-- Modelled from the spec: "previous_code_stem (code with trailing digits
stripped)" — the stem the specification describes, removing only a trailing
run of digit characters.  Used solely to compare the spec wording with the
source `stripDigits`. -/
def stripTrailingDigitsSpec (s : String) : String :=
  String.mk ((s.toList.reverse.dropWhile Char.isDigit).reverse)

/-- The loop state of `group_likert`: the three `previous_*` trackers
(`None` before the first row, as in the Python) and the working group
`group_survey_q`. -/
structure GroupState where
  previous_answer_format : Option String
  previous_file_answer : Option String
  previous_code : Option String
  group_survey_q : List Row

deriving instance DecidableEq for GroupState

/-- One iteration of the loop body of `group_likert` on row `q`: the groups
yielded at this row, and the state for the next row (working group flushed
or kept, then the row appended, then the `previous_*` trackers updated from
the current row). -/
def group_likert_step (st : GroupState) (q : Row) : List (List Row) × GroupState :=
  let current_answer_format := toLowerStr q.answer_format
  let current_file_answer := q.answer_file
  let current_code := stripDigits q.code
  let current_condition : Bool := q.condition != ""
  let p : List (List Row) × List Row :=
    if current_answer_format = "likert" ∧ current_condition = false then
      if st.group_survey_q.length > 0 then
        if st.previous_file_answer = some current_file_answer ∨
            st.previous_file_answer = none then
          if st.previous_answer_format = some "likert" then
            ([], st.group_survey_q)
          else
            ([st.group_survey_q], [])
        else
          ([st.group_survey_q], [])
      else
        ([], st.group_survey_q)
    else if current_answer_format = "y/n/na" ∧ current_condition = false then
      if st.group_survey_q.length > 0 then
        if st.previous_code = some current_code ∨ st.previous_code = none then
          if st.previous_answer_format = some "y/n/na" then
            ([], st.group_survey_q)
          else
            ([st.group_survey_q], [])
        else
          ([st.group_survey_q], [])
      else
        ([], st.group_survey_q)
    else
      if st.group_survey_q.length > 0 then
        ([st.group_survey_q], [])
      else
        ([], st.group_survey_q)
  (p.1, ⟨some current_answer_format, some current_file_answer,
         some current_code, p.2 ++ [q]⟩)

/-- The loop of `group_likert` over the remaining rows, followed by the
final `yield group_survey_q` (which fires even when the working group is
empty, exactly as in the source). -/
def group_likert_go (st : GroupState) : List Row → List (List Row)
  | [] => [st.group_survey_q]
  | q :: qs =>
    let r := group_likert_step st q
    r.1 ++ group_likert_go r.2 qs

/-- `group_likert`: group the question rows that have to be displayed
together (likert rows sharing an answer file, y/n/na rows sharing a code
stem). -/
def group_likert (indict : List Row) : List (List Row) :=
  group_likert_go ⟨none, none, none, []⟩ indict

/-- The grouping key of a row: the four fields `group_likert` reads
(`answer_format`, `condition`, `answer_file`, `code`). -/
def row_key (r : Row) : String × String × String × String :=
  (r.answer_format, r.condition, r.answer_file, r.code)

/-- Convenience constructor for concrete test rows (text fields empty). -/
def mkRow (sect : Nat) (code fmt cond file : String) : Row :=
  { sect := sect, code := code, answer_format := fmt, condition := cond,
    answer_file := file, other := "", random := "", question := "",
    lang_trans := [] }

/-- A row carrying English base text. -/
def c6rowEn : Row :=
  { sect := 1, code := "Q1", answer_format := "freetext", condition := "",
    answer_file := "", other := "", random := "", question := "English text",
    lang_trans := ["first translation"] }

/-- The same row with different language-specific text and `other` flag. -/
def c6rowDe : Row :=
  { sect := 1, code := "Q1", answer_format := "freetext", condition := "",
    answer_file := "", other := "Y", random := "", question := "anderer Text",
    lang_trans := [] }

/-- A plain singleton row used as a non-empty input. -/
def c10wrow : Row := mkRow 1 "Q1" "freetext" "" ""

/-- A likert row carrying a condition. -/
def c1row1 : Row := mkRow 1 "lik1" "likert" "x in [1 OR 2]" "A"

/-- An unconditioned likert row with the same answer file. -/
def c1row2 : Row := mkRow 1 "lik2" "likert" "" "A"

/-- A y/n/na row with an inner (non-trailing) digit in its code. -/
def c8row1 : Row := mkRow 1 "Q1a" "y/n/na" "" ""

/-- A second y/n/na row whose code differs only in the inner digit. -/
def c8row2 : Row := mkRow 1 "Q2a" "y/n/na" "" ""

/-- An emitted output record, restricted to the fields the core sets
explicitly (the per-shape templates from the config only contribute fixed
external fields).  `sectionHeader idx lang` is the group record written by
`check_adding_section` with `type/scale` set to G followed by the index.  On
`question`, `template` names the config template selected by
`setup_question`, and `sect`/`multi` are provenance annotations — the
section of the row the record was created from and whether its name was
synthesized for a compound likert group — carried only so that invariants
about the stream can be stated. -/
inductive Rec where
  | sectionHeader (idx : Int) (language : String)
  | question (template : String) (name : String) (text : String)
      (language : String) (other : String) (sect : Nat) (multi : Bool)
  | subquestion (name : String) (text : String) (language : String)
  | answer (name : String) (text : String) (language : String)

deriving instance DecidableEq for Rec

/-- Python membership of a character in a string. -/
def containsChar (s : String) (c : Char) : Bool := s.data.contains c

/-- Substring test on character lists. -/
def containsSubAux (pat : List Char) : List Char → Bool
  | [] => pat.isEmpty
  | c :: cs => pat.isPrefixOf (c :: cs) || containsSubAux pat cs

/-- Python substring containment of `pat` in `s`. -/
def containsSub (s pat : String) : Bool := containsSubAux pat.data s.data

/-- Python `str.split(sep)` on character lists (the `Nat` argument skips
the remainder of a matched separator). -/
def splitAux (sep : List Char) : Nat → List Char → List Char →
    List (List Char)
  | _ + 1, [], acc => [acc.reverse]
  | k + 1, _ :: cs, acc => splitAux sep k cs acc
  | 0, [], acc => [acc.reverse]
  | 0, c :: cs, acc =>
    if sep.isPrefixOf (c :: cs) ∧ sep ≠ [] then
      acc.reverse :: splitAux sep (sep.length - 1) cs []
    else
      splitAux sep 0 cs (c :: acc)

/-- Python `s.split(sep)` (a computable stand-in for `String.splitOn`,
whose core implementation does not kernel-reduce). -/
def splitStr (s sep : String) : List String :=
  (splitAux sep.data 0 s.data []).map String.mk

/-- Python `str.replace(old, new)` on character lists. -/
def replaceAux (pat repl : List Char) : Nat → List Char → List Char
  | _ + 1, [] => []
  | k + 1, _ :: cs => replaceAux pat repl k cs
  | 0, [] => []
  | 0, c :: cs =>
    if pat.isPrefixOf (c :: cs) ∧ pat ≠ [] then
      repl ++ replaceAux pat repl (pat.length - 1) cs
    else
      c :: replaceAux pat repl 0 cs

/-- Python `s.replace(old, new)`. -/
def replaceStr (s pat repl : String) : String :=
  String.mk (replaceAux pat.data repl.data 0 s.data)

/-- Python `s.strip()` (whitespace removed from both ends). -/
def trimStr (s : String) : String :=
  String.mk (((s.data.dropWhile Char.isWhitespace).reverse.dropWhile
    Char.isWhitespace).reverse)

/-- Python `s.strip` with the quote character: every leading and trailing
double-quote character removed. -/
def stripQuotes (s : String) : String :=
  String.mk (((s.data.dropWhile (· == '"')).reverse.dropWhile
    (· == '"')).reverse)

/-- Decimal value of a digit-character list (models the numeric index part
of a `lang_trans` column key). -/
def natOfChars (l : List Char) : Nat :=
  l.foldl (fun a c => a * 10 + (c.toNat - 48)) 0

/-- `setup_condition`: parse the condition field.  All computed locals are
discarded by the source; the only observable behavior is the
`UnboundLocalError` raised inside `split_list` when the condition contains
a bracketed list mentioning neither "OR" nor "AND" (`logical_element` is
then never assigned).  The Python assigns the or-connector and then
overwrites it with the and-connector when both substrings occur, hence the
AND-first conditional here.  The `print` side effect is not modelled. -/
def setup_condition (condition : String) : Except String Unit :=
  if containsChar condition '[' then
    let element_to_compare := (splitStr condition "[").headD ""
    let list_to_compare := replaceStr ((splitStr condition "[").getD 1 "") "]" ""
    let logical_element : Option String :=
      if containsSub list_to_compare "AND" then some "and"
      else if containsSub list_to_compare "OR" then some "or"
      else none
    match logical_element with
    | none =>
      Except.error "local variable logical_element referenced before assignment"
    | some le =>
      let _split_list :=
        (splitStr (toLowerStr list_to_compare) (toLowerStr le)).map trimStr
      let _element := trimStr (replaceStr element_to_compare "in" "")
      Except.ok ()
  else
    Except.ok ()

/-- `get_txt_lang`: the text column key for a language pass. -/
def get_txt_lang (lang : String) (index_lang : Nat) : String :=
  if lang ≠ "en" then "lang_trans" ++ toString index_lang else "question"

/-- Row text lookup `row[txt_lang]`: the `question` column or a
`lang_trans` translation column (the `lang_trans` list holds `lang_trans1`
at position 0). -/
def rowGet (r : Row) (key : String) : String :=
  if key = "question" then r.question
  else r.lang_trans.getD (natOfChars (key.data.drop 10) - 1) ""

/-- The `if/elif` template-selection chain of `setup_question`; `none`
models falling through to the bare `raise`. -/
def question_template (type_question : String) : Option String :=
  if type_question = "multi_likert" then some "likert_question"
  else if type_question = "one choice" then some "one_choice_question"
  else if type_question = "ranking" then some "ranking_question"
  else if type_question = "multiple choice" then some "multiple_choice_question"
  else if type_question = "freenumeric" then some "freenumeric_question"
  else if type_question = "freetext" then some "freetext_question"
  else if type_question = "likert" then some "likert_question"
  else if type_question = "y/n/na" then some "y_n_question"
  else none

/-- `setup_question`: the question record shared by all shapes, together
with the updated multi-question counter (`self.code_to_multiple_question`,
incremented only for `multi_likert`, whose name is `likert` followed by the
counter and whose text is empty).  An unrecognized `type_question` models
the bare `raise`. -/
def setup_question (type_question : String) (row : Row)
    (txt_lang lang : String) (counter : Nat) : Except String (Rec × Nat) :=
  match question_template type_question with
  | none => Except.error type_question
  | some tmpl =>
    let other := if row.other = "Y" then "Y" else "N"
    if type_question = "multi_likert" then
      Except.ok (Rec.question tmpl ("likert" ++ toString counter) "" lang
        other row.sect true, counter + 1)
    else
      Except.ok (Rec.question tmpl row.code (rowGet row txt_lang) lang other
        row.sect false, counter)

/-- `setup_subquestion`: one subquestion per row for `multi_likert`, the
eight synthetic rank rows for `ranking`, the single empty `SQ001` for
`likert` (independent `if` statements in the source). -/
def setup_subquestion (type_question : String) (lang : String)
    (list_likert : List Row) (txt_lang : String) : List Rec :=
  (if type_question = "multi_likert" then
    list_likert.map (fun row =>
      Rec.subquestion row.code (rowGet row txt_lang) lang)
  else []) ++
  (if type_question = "ranking" then
    (List.range' 1 8).map (fun i =>
      Rec.subquestion (toString i) ("Rank" ++ toString i) lang)
  else []) ++
  (if type_question = "likert" then [Rec.subquestion "SQ001" "" lang] else [])

/-- `setup_answer`: one answer record per line of the answer-option
resource (the `get_answer` output for the row's `answer_file`), with
sequential numeric names from 1; the text is the semicolon-separated field
at `index_lang`, falling back to field 0 on `IndexError`, quotes stripped
either way.  The per-shape answer template only contributes external config
fields and is not modelled. -/
def setup_answer (answer_lines : List String) (index_lang : Nat)
    (lang : String) : List Rec :=
  answer_lines.enum.map (fun p =>
    let fields := splitStr p.2 ";"
    let text :=
      if index_lang < fields.length then stripQuotes (fields.getD index_lang "")
      else stripQuotes (fields.getD 0 "")
    Rec.answer (toString (p.1 + 1)) text lang)

/-- `check_adding_section`: emit a group header record when the row's
1-based section minus one differs from the tracked zero-based index, and
return the updated index.  The language-specific section text merged from
config is external and not modelled. -/
def check_adding_section (sect : Nat) (nbr_section : Int) (lang : String) :
    List Rec × Int :=
  if (sect : Int) - 1 ≠ nbr_section then
    ([Rec.sectionHeader ((sect : Int) - 1) lang], (sect : Int) - 1)
  else
    ([], nbr_section)

/-- The per-row body of the singleton branch of `create_survey_questions`
(after the section check): parse the condition, then dispatch on the
lower-cased `answer_format`.  The source tests the seven recognized shapes
with independent `if` statements over mutually exclusive string values,
rendered here as an `if/else` chain; a format matching none of them emits
nothing and raises nothing.  Returns the emitted records and the updated
multi-question counter. -/
def process_singleton_row (ans : String → List String) (row : Row)
    (txt_lang : String) (index_lang : Nat) (lang : String) (counter : Nat) :
    Except String (List Rec × Nat) :=
  match setup_condition row.condition with
  | Except.error e => Except.error e
  | Except.ok _ =>
    let fmt := toLowerStr row.answer_format
    if fmt = "one choice" then
      match setup_question "one choice" row txt_lang lang counter with
      | Except.error e => Except.error e
      | Except.ok (q, c) =>
        Except.ok ([q] ++ setup_answer (ans row.answer_file) index_lang lang, c)
    else if fmt = "ranking" then
      match setup_question "ranking" row txt_lang lang counter with
      | Except.error e => Except.error e
      | Except.ok (q, c) =>
        Except.ok ([q] ++ setup_subquestion "ranking" lang [] "" ++
          setup_answer (ans row.answer_file) index_lang lang, c)
    else if fmt = "multiple choices" then
      match setup_question "multiple choice" row txt_lang lang counter with
      | Except.error e => Except.error e
      | Except.ok (q, c) =>
        Except.ok ([q] ++ setup_answer (ans row.answer_file) index_lang lang, c)
    else if fmt = "freenumeric" then
      match setup_question "freenumeric" row txt_lang lang counter with
      | Except.error e => Except.error e
      | Except.ok (q, c) => Except.ok ([q], c)
    else if fmt = "freetext" then
      match setup_question "freetext" row txt_lang lang counter with
      | Except.error e => Except.error e
      | Except.ok (q, c) => Except.ok ([q], c)
    else if fmt = "likert" then
      match setup_question "likert" row txt_lang lang counter with
      | Except.error e => Except.error e
      | Except.ok (q, c) =>
        Except.ok ([q] ++ setup_subquestion "likert" lang [] "" ++
          setup_answer (ans row.answer_file) index_lang lang, c)
    else if fmt = "y/n/na" then
      match setup_question "y/n/na" row txt_lang lang counter with
      | Except.error e => Except.error e
      | Except.ok (q, c) => Except.ok ([q], c)
    else
      Except.ok ([], counter)

/-- The `for row in q` loop of the singleton branch: per row, section check
then the row body. -/
def process_rows (ans : String → List String) (txt_lang : String)
    (index_lang : Nat) (lang : String) : List Row → Nat → Int →
    Except String (List Rec × Nat × Int)
  | [], counter, nbr_section => Except.ok ([], counter, nbr_section)
  | row :: rest, counter, nbr_section =>
    let s := check_adding_section row.sect nbr_section lang
    match process_singleton_row ans row txt_lang index_lang lang counter with
    | Except.error e => Except.error e
    | Except.ok (recs, c) =>
      match process_rows ans txt_lang index_lang lang rest c s.2 with
      | Except.error e => Except.error e
      | Except.ok (recs2, c2, ns2) => Except.ok (s.1 ++ recs ++ recs2, c2, ns2)

/-- Process one group yielded by `group_likert` (the loop body of
`create_survey_questions`): for a compound group, section check on the
group's first row then the multi-likert or grouped-y/n/na emitters; for a
singleton (or empty) group, the per-row loop.  The in-place `shuffle` of a
compound group whose `random` flag is Y only permutes presentation order
within the group and is modelled as the identity permutation. -/
def process_group (ans : String → List String) (q : List Row)
    (txt_lang : String) (index_lang : Nat) (lang : String) (counter : Nat)
    (nbr_section : Int) : Except String (List Rec × Nat × Int) :=
  if q.length > 1 then
    let head := q.headD default
    let s := check_adding_section head.sect nbr_section lang
    if toLowerStr head.answer_format = "likert" then
      match setup_question "multi_likert" head txt_lang lang counter with
      | Except.error e => Except.error e
      | Except.ok (qr, c) =>
        Except.ok (s.1 ++ [qr] ++
          setup_subquestion "multi_likert" lang q txt_lang ++
          setup_answer (ans head.answer_file) index_lang lang, c, s.2)
    else if toLowerStr head.answer_format = "y/n/na" then
      match setup_question "y/n/na" head txt_lang lang counter with
      | Except.error e => Except.error e
      | Except.ok (qr, c) => Except.ok (s.1 ++ [qr], c, s.2)
    else
      Except.ok (s.1, counter, s.2)
  else
    process_rows ans txt_lang index_lang lang q counter nbr_section

/-- Fold `process_group` over the group stream, concatenating the emitted
records and threading the counter and section index. -/
def process_groups (ans : String → List String) (txt_lang : String)
    (index_lang : Nat) (lang : String) : List (List Row) → Nat → Int →
    Except String (List Rec)
  | [], _, _ => Except.ok []
  | g :: gs, counter, nbr_section =>
    match process_group ans g txt_lang index_lang lang counter nbr_section with
    | Except.error e => Except.error e
    | Except.ok (recs, c, ns) =>
      match process_groups ans txt_lang index_lang lang gs c ns with
      | Except.error e => Except.error e
      | Except.ok recs2 => Except.ok (recs ++ recs2)

/-- One language pass of `create_survey_questions`: section index reset to
-1, the synthetic section-0 check (a no-op, since 0 - 1 equals the initial
index), multi-question counter reset to 0, then the grouped rows. -/
def create_survey_questions_lang (ans : String → List String)
    (rows : List Row) (index_lang : Nat) (lang : String) :
    Except String (List Rec) :=
  let txt_lang := get_txt_lang lang index_lang
  let s0 := check_adding_section 0 (-1) lang
  match process_groups ans txt_lang index_lang lang (group_likert rows) 0
      s0.2 with
  | Except.error e => Except.error e
  | Except.ok recs => Except.ok (s0.1 ++ recs)

/-- The loop over `enumerate(self.languages)`. -/
def create_survey_questions_go (ans : String → List String)
    (rows : List Row) : Nat → List String → Except String (List Rec)
  | _, [] => Except.ok []
  | index_lang, lang :: rest =>
    match create_survey_questions_lang ans rows index_lang lang with
    | Except.error e => Except.error e
    | Except.ok recs =>
      match create_survey_questions_go ans rows (index_lang + 1) rest with
      | Except.error e => Except.error e
      | Except.ok recs2 => Except.ok (recs ++ recs2)

/-- `create_survey_questions`: the question stream for every language, in
language order. -/
def create_survey_questions (ans : String → List String) (rows : List Row)
    (languages : List String) : Except String (List Rec) :=
  create_survey_questions_go ans rows 0 languages

/-- An answer-option resource lookup with no options (the resource contents
are irrelevant to the claims using this). -/
def noAnswers : String → List String := fun _ => []

/-- A singleton row whose `answer_format` is none of the seven recognized
shapes. -/
def c2row : Row := mkRow 1 "QB" "slider" "" ""

/-- A singleton row whose condition is a bracketed list with neither "OR"
nor "AND". -/
def c3row : Row := mkRow 1 "QC" "freetext" "x in [1]" ""

/-- A plain row used to show condition-parser inertness. -/
def c3wrow : Row := mkRow 1 "QW" "freetext" "" ""

/-- Rows whose section numbers go 1, 2, then back to 1. -/
def rowsC4 : List Row :=
  [mkRow 1 "Q1" "freetext" "" "", mkRow 2 "Q2" "freetext" "" "",
   mkRow 1 "Q3" "freetext" "" ""]

/-- The record stream the pipeline emits for `rowsC4` in the "en" pass. -/
def c4recs : List Rec :=
  [Rec.sectionHeader 0 "en",
   Rec.question "freetext_question" "Q1" "" "en" "N" 1 false,
   Rec.sectionHeader 1 "en",
   Rec.question "freetext_question" "Q2" "" "en" "N" 2 false,
   Rec.sectionHeader 0 "en",
   Rec.question "freetext_question" "Q3" "" "en" "N" 1 false]

/-- Numeric value of a decimal digit character. -/
def digitVal (c : Char) : Nat := c.toNat - 48

/-- Decimal decoding of a most-significant-first digit-character list. -/
def decodeDigits (l : List Char) : Nat :=
  l.foldl (fun a c => a * 10 + digitVal c) 0

/-- Structural reformulation of the decimal printing of a natural number
(most significant digit first), used to reason about `Nat.repr`. -/
def toDigitsAux (n : Nat) : List Char :=
  if n < 10 then [Nat.digitChar n]
  else toDigitsAux (n / 10) ++ [Nat.digitChar (n % 10)]
termination_by n
decreasing_by exact Nat.div_lt_self (by omega) (by omega)

/-- The names of the synthesized compound-likert header questions in an
emitted record stream, in emission order (identified by the `multi`
provenance mark). -/
def multiNames (recs : List Rec) : List String :=
  recs.filterMap (fun r =>
    match r with
    | Rec.question _ name _ _ _ _ true => some name
    | _ => none)

/-- The number of compound-likert groups in a group stream (size above one,
first row's lower-cased format `likert`). -/
def countCompoundLikert (gs : List (List Row)) : Nat :=
  (gs.filter (fun g =>
    decide (g.length > 1 ∧ toLowerStr (g.headD default).answer_format =
      "likert"))).length

/-- A two-option answer resource ("Yes"/"Oui" translated, "No"
untranslated) shared by the concrete pipeline runs below. -/
def ansTwo : String → List String := fun _ => ["\"Yes\";\"Oui\"", "No"]

/-- Rows producing two compound-likert groups with a singleton between. -/
def rowsC7 : List Row :=
  [mkRow 1 "L1" "likert" "" "A", mkRow 1 "L2" "likert" "" "A",
   mkRow 1 "F1" "freetext" "" "",
   mkRow 2 "L3" "likert" "" "B", mkRow 2 "L4" "likert" "" "B"]

/-- The record stream for `rowsC7` in the "en" pass. -/
def c7recs : List Rec :=
  [Rec.sectionHeader 0 "en",
   Rec.question "likert_question" "likert0" "" "en" "N" 1 true,
   Rec.subquestion "L1" "" "en",
   Rec.subquestion "L2" "" "en",
   Rec.answer "1" "Yes" "en",
   Rec.answer "2" "No" "en",
   Rec.question "freetext_question" "F1" "" "en" "N" 1 false,
   Rec.sectionHeader 1 "en",
   Rec.question "likert_question" "likert1" "" "en" "N" 2 true,
   Rec.subquestion "L3" "" "en",
   Rec.subquestion "L4" "" "en",
   Rec.answer "1" "Yes" "en",
   Rec.answer "2" "No" "en"]

/-- The provenance section of a question record (`none` for any other
record class). -/
def sectOf? : Rec → Option Nat
  | Rec.question _ _ _ _ _ s _ => some s
  | _ => none

/-- The indices of the section-header records of a stream, in emission
order. -/
def headerIdxs (recs : List Rec) : List Int :=
  recs.filterMap (fun r =>
    match r with
    | Rec.sectionHeader i _ => some i
    | _ => none)

/-- The yielded groups of one step, concatenated with the new working
group, are the old working group with the current row appended. -/
theorem group_likert_step_join (st : GroupState) (q : Row) :
    ((group_likert_step st q).1).flatten ++
      (group_likert_step st q).2.group_survey_q =
      st.group_survey_q ++ [q] := by
  simp only [group_likert_step]
  split_ifs <;> simp

/-- Concatenating everything `group_likert_go` yields recovers the working
group followed by the remaining input rows. -/
theorem group_likert_go_join (rows : List Row) : ∀ st : GroupState,
    (group_likert_go st rows).flatten = st.group_survey_q ++ rows := by
  induction rows with
  | nil => intro st; simp [group_likert_go]
  | cons q qs ih =>
    intro st
    have h := group_likert_step_join st q
    simp only [group_likert_go, List.flatten_append, ih]
    rw [← List.append_assoc, h]
    simp

/-- Every group yielded by a single step is non-empty (mid-stream flushes
are guarded by the working-group length check). -/
theorem group_likert_step_flush_nonempty (st : GroupState) (q : Row) :
    ∀ g ∈ (group_likert_step st q).1, g ≠ [] := by
  simp only [group_likert_step]
  split_ifs with h₁ h₂ h₃ h₄ h₅ h₆ h₇ h₈ h₉ <;>
    simp_all [List.length_pos_iff_ne_nil]

/-- After a step the working group is non-empty (the current row was just
appended). -/
theorem group_likert_step_group_nonempty (st : GroupState) (q : Row) :
    (group_likert_step st q).2.group_survey_q ≠ [] := by
  simp only [group_likert_step]
  split_ifs <;> simp

/-- If the working group is non-empty or rows remain, every group yielded
by the rest of the loop is non-empty. -/
theorem group_likert_go_nonempty : ∀ (rows : List Row) (st : GroupState),
    (st.group_survey_q ≠ [] ∨ rows ≠ []) →
    ∀ g ∈ group_likert_go st rows, g ≠ [] := by
  intro rows
  induction rows with
  | nil =>
    intro st h g hg
    simp only [group_likert_go, List.mem_singleton] at hg
    rcases h with h | h
    · exact hg ▸ h
    · exact absurd rfl h
  | cons q qs ih =>
    intro st h g hg
    simp only [group_likert_go, List.mem_append] at hg
    rcases hg with hg | hg
    · exact group_likert_step_flush_nonempty st q g hg
    · exact ih (group_likert_step st q).2
        (Or.inl (group_likert_step_group_nonempty st q)) g hg

/-- A grouping step looks only at the row's key and at the
`previous_*`/working-group-length part of the state: key-equal rows under
component-equal states flush groups of the same lengths and reach
component-equal states. -/
theorem group_likert_step_key (st₁ st₂ : GroupState) (q₁ q₂ : Row)
    (hk : row_key q₁ = row_key q₂)
    (h₁ : st₁.previous_answer_format = st₂.previous_answer_format)
    (h₂ : st₁.previous_file_answer = st₂.previous_file_answer)
    (h₃ : st₁.previous_code = st₂.previous_code)
    (h₄ : st₁.group_survey_q.length = st₂.group_survey_q.length) :
    (group_likert_step st₁ q₁).1.map List.length =
        (group_likert_step st₂ q₂).1.map List.length ∧
    (group_likert_step st₁ q₁).2.previous_answer_format =
        (group_likert_step st₂ q₂).2.previous_answer_format ∧
    (group_likert_step st₁ q₁).2.previous_file_answer =
        (group_likert_step st₂ q₂).2.previous_file_answer ∧
    (group_likert_step st₁ q₁).2.previous_code =
        (group_likert_step st₂ q₂).2.previous_code ∧
    (group_likert_step st₁ q₁).2.group_survey_q.length =
        (group_likert_step st₂ q₂).2.group_survey_q.length := by
  simp only [row_key, Prod.mk.injEq] at hk
  obtain ⟨e₁, e₂, e₃, e₄⟩ := hk
  simp only [group_likert_step, ← e₁, ← e₂, ← e₃, ← e₄, ← h₁, ← h₂, ← h₃, ← h₄]
  split_ifs <;> simp [h₄]

/-- Group lengths produced by the loop depend only on the row keys and the
`previous_*`/working-group-length part of the state. -/
theorem group_likert_go_key : ∀ (rows₁ rows₂ : List Row) (st₁ st₂ : GroupState),
    rows₁.map row_key = rows₂.map row_key →
    st₁.previous_answer_format = st₂.previous_answer_format →
    st₁.previous_file_answer = st₂.previous_file_answer →
    st₁.previous_code = st₂.previous_code →
    st₁.group_survey_q.length = st₂.group_survey_q.length →
    (group_likert_go st₁ rows₁).map List.length =
      (group_likert_go st₂ rows₂).map List.length := by
  intro rows₁
  induction rows₁ with
  | nil =>
    intro rows₂ st₁ st₂ hk h₁ h₂ h₃ h₄
    cases rows₂ with
    | nil => simp [group_likert_go, h₄]
    | cons b bs => simp at hk
  | cons q qs ih =>
    intro rows₂ st₁ st₂ hk h₁ h₂ h₃ h₄
    cases rows₂ with
    | nil => simp at hk
    | cons b bs =>
      simp only [List.map_cons, List.cons.injEq] at hk
      obtain ⟨hq, hqs⟩ := hk
      obtain ⟨s₁, s₂, s₃, s₄, s₅⟩ := group_likert_step_key st₁ st₂ q b hq h₁ h₂ h₃ h₄
      simp only [group_likert_go, List.map_append, s₁]
      rw [ih bs _ _ hqs s₂ s₃ s₄ s₅]

/-- C5: the grouping engine partitions the rows: every input row belongs to
exactly one yielded group and concatenating all yielded groups in yield
order reproduces the exact input row order (no row duplicated, dropped or
reordered). -/
theorem claim_C5_grouping_partitions (rows : List Row) :
    (group_likert rows).flatten = rows := by
  have h := group_likert_go_join rows ⟨none, none, none, []⟩
  simpa [group_likert] using h

/-- C6: grouping decisions depend only on `answer_format`, `condition`,
`answer_file` and `code`: two row sequences that agree row-by-row on those
four fields (but may differ in any other field) are cut into groups of the
same lengths, i.e. the same partition of row positions (by C5 the rows are
kept in order, so the group lengths determine the partition); in
particular the grouping is deterministic and language-independent. -/
theorem claim_C6_grouping_key_determined (rows₁ rows₂ : List Row)
    (h : rows₁.map row_key = rows₂.map row_key) :
    (group_likert rows₁).map List.length =
      (group_likert rows₂).map List.length :=
  group_likert_go_key rows₁ rows₂ ⟨none, none, none, []⟩ ⟨none, none, none, []⟩
    h rfl rfl rfl rfl

/-- C6 witness: two key-equal single rows with different text fields group
identically. -/
theorem claim_C6_witness :
    c6rowEn.question ≠ c6rowDe.question ∧
    (group_likert [c6rowEn]).map List.length =
      (group_likert [c6rowDe]).map List.length :=
  ⟨by decide, claim_C6_grouping_key_determined [c6rowEn] [c6rowDe] (by decide)⟩

/-- C10 counterexample: on the empty input the engine still executes its
final `yield group_survey_q` and yields one empty group, contradicting the
claim that it never yields an empty group "including the empty
sequence". -/
theorem claim_C10_counterexample : ([] : List Row) ∈ group_likert [] := by
  decide

/-- C10 (amended): for every non-empty input row sequence, every group
yielded by the grouping engine is a non-empty sequence of rows (only the
empty input makes the final flush yield an empty group). -/
theorem claim_C10_groups_nonempty (rows : List Row) (h : rows ≠ []) :
    ∀ g ∈ group_likert rows, g ≠ [] :=
  group_likert_go_nonempty rows ⟨none, none, none, []⟩ (Or.inr h)

/-- C10 witness: a one-row input yields no empty group. -/
theorem claim_C10_witness : ([] : List Row) ∉ group_likert [c10wrow] :=
  fun hmem => claim_C10_groups_nonempty [c10wrow] (by decide) [] hmem rfl

/-- C1: evaluation of the grouping engine at the failing input.  The
conditioned likert row `c1row1` is merged with the FOLLOWING unconditioned
likert row `c1row2` into one group (the `previous_condition` tracker of the
source is initialized but never consulted), while in the other order the
conditioned row does flush the open group and stays alone, as the claim
demands. -/
theorem claim_C1_conditioned_row_merges_forward :
    group_likert [c1row1, c1row2] = [[c1row1, c1row2]] ∧
    group_likert [c1row2, c1row1] = [[c1row2], [c1row1]] := by
  decide

/-- C8 counterexample: the stem the engine compares strips ALL digit
characters ("Q1a" becomes "Qa"), not only trailing ones as the claim states
("Q1a" has no trailing digits, so its claimed stem is "Q1a" itself); the
codes "Q1a" and "Q2a", whose trailing-digit stems differ, are therefore
merged into one y/n/na group. -/
theorem claim_C8_counterexample :
    stripDigits "Q1a" ≠ stripTrailingDigitsSpec "Q1a" ∧
    stripTrailingDigitsSpec "Q1a" ≠ stripTrailingDigitsSpec "Q2a" ∧
    group_likert [c8row1, c8row2] = [[c8row1, c8row2]] := by
  decide

/-- C8 (amended): the code stem compared for y/n/na merging is the row's
code with ALL digit characters removed, wherever they occur: two adjacent
unconditioned y/n/na rows are merged into one group exactly when their
codes agree after removing every digit. -/
theorem claim_C8_stem_strips_all_digits (r₁ r₂ : Row)
    (hf₁ : toLowerStr r₁.answer_format = "y/n/na")
    (hf₂ : toLowerStr r₂.answer_format = "y/n/na")
    (hc₁ : r₁.condition = "") (hc₂ : r₂.condition = "") :
    group_likert [r₁, r₂] = [[r₁, r₂]] ↔
      stripDigits r₁.code = stripDigits r₂.code := by
  simp only [group_likert, group_likert_go, group_likert_step, hf₁, hf₂, hc₁,
    hc₂]
  by_cases hs : stripDigits r₁.code = stripDigits r₂.code <;>
    simp [hs]

/-- C8 witness: "Q1a" and "Q2a" share the all-digits-stripped stem "Qa" and
merge. -/
theorem claim_C8_witness :
    toLowerStr c8row1.answer_format = "y/n/na" ∧
    stripDigits c8row1.code = stripDigits c8row2.code ∧
    group_likert [c8row1, c8row2] = [[c8row1, c8row2]] :=
  ⟨by decide, by decide,
    (claim_C8_stem_strips_all_digits c8row1 c8row2 (by decide) (by decide)
      rfl rfl).mpr (by decide)⟩

/-- C2 counterexample: processing a singleton row with the unrecognized
format "slider" is NOT a fatal error: it returns successfully, emits no
record, and leaves the counter unchanged — the row is silently skipped (the
`raise` in `setup_question` is unreachable because the dispatch loop only
calls it for recognized formats). -/
theorem claim_C2_counterexample :
    process_singleton_row noAnswers c2row "question" 0 "en" 0 =
      Except.ok ([], 0) := by
  rfl

/-- C2 (amended): a singleton row whose lower-cased `answer_format` is not
one of the seven recognized shapes is silently skipped: if its condition
parses, processing succeeds, emits no record, and leaves the multi-question
counter unchanged (no error is raised and no default shape is applied). -/
theorem claim_C2_unrecognized_format_skipped (ans : String → List String)
    (row : Row) (txt_lang : String) (index_lang : Nat) (lang : String)
    (counter : Nat)
    (hcond : setup_condition row.condition = Except.ok ())
    (h1 : toLowerStr row.answer_format ≠ "one choice")
    (h2 : toLowerStr row.answer_format ≠ "ranking")
    (h3 : toLowerStr row.answer_format ≠ "multiple choices")
    (h4 : toLowerStr row.answer_format ≠ "freenumeric")
    (h5 : toLowerStr row.answer_format ≠ "freetext")
    (h6 : toLowerStr row.answer_format ≠ "likert")
    (h7 : toLowerStr row.answer_format ≠ "y/n/na") :
    process_singleton_row ans row txt_lang index_lang lang counter =
      Except.ok ([], counter) := by
  simp only [process_singleton_row, hcond]
  simp [h1, h2, h3, h4, h5, h6, h7]

/-- C2 witness: the "slider" row is skipped with the counter preserved. -/
theorem claim_C2_witness :
    toLowerStr c2row.answer_format ≠ "likert" ∧
    process_singleton_row noAnswers c2row "question" 0 "en" 5 =
      Except.ok ([], 5) :=
  ⟨by decide,
    claim_C2_unrecognized_format_skipped noAnswers c2row "question" 0 "en" 5
      rfl (by decide) (by decide) (by decide) (by decide) (by decide)
      (by decide) (by decide)⟩

/-- C3 counterexample: the condition parser DOES raise on the bracketed
condition "x in [1]" (its bracketed part contains neither "OR" nor "AND",
so `logical_element` is read before assignment), and the error propagates
out of the row processing, aborting the run instead of being ignored. -/
theorem claim_C3_counterexample :
    setup_condition "x in [1]" =
      Except.error
        "local variable logical_element referenced before assignment" ∧
    process_singleton_row noAnswers c3row "question" 0 "en" 0 =
      Except.error
        "local variable logical_element referenced before assignment" := by
  exact ⟨rfl, rfl⟩

/-- `setup_question` never reads the row's `condition` field. -/
theorem setup_question_condition_irrel (t : String) (r : Row) (c : String)
    (txt_lang lang : String) (k : Nat) :
    setup_question t { r with condition := c } txt_lang lang k =
      setup_question t r txt_lang lang k := rfl

/-- C3 (amended): for every condition string that parses without error, the
parser's result is discarded — replacing one ok-parsing condition by any
other leaves the emitted records and counter unchanged; and the parser
returns without error for every condition with no opening bracket and every
condition whose post-bracket part mentions "AND" or "OR" (only a bracketed
list with neither connector raises, as in the counterexample). -/
theorem claim_C3_condition_parser_inert (ans : String → List String)
    (r : Row) (c₁ c₂ : String) (txt_lang : String) (index_lang : Nat)
    (lang : String) (counter : Nat)
    (h₁ : setup_condition c₁ = Except.ok ())
    (h₂ : setup_condition c₂ = Except.ok ()) :
    (process_singleton_row ans { r with condition := c₁ } txt_lang index_lang
        lang counter =
      process_singleton_row ans { r with condition := c₂ } txt_lang index_lang
        lang counter) ∧
    ∀ c : String,
      (containsChar c '[' = false ∨
        containsSub (replaceStr ((splitStr c "[").getD 1 "") "]" "") "AND" =
          true ∨
        containsSub (replaceStr ((splitStr c "[").getD 1 "") "]" "") "OR" =
          true) →
      setup_condition c = Except.ok () := by
  constructor
  · simp only [process_singleton_row]
    simp only [show ({ r with condition := c₁ } : Row).condition = c₁ from rfl,
      show ({ r with condition := c₂ } : Row).condition = c₂ from rfl, h₁, h₂]
    simp only [setup_question_condition_irrel]
  · intro c hc
    rcases hc with hc | hc | hc
    · simp [setup_condition, hc]
    · simp only [List.getD_eq_getElem?_getD] at hc
      by_cases hbr : containsChar c '[' = true
      · simp [setup_condition, hbr, hc]
      · simp [setup_condition, hbr]
    · simp only [List.getD_eq_getElem?_getD] at hc
      by_cases hbr : containsChar c '[' = true
      · by_cases hand :
            containsSub (replaceStr (((splitStr c "[")[1]?).getD "") "]" "")
              "AND" = true <;>
          simp [setup_condition, hbr, hc, hand]
      · simp [setup_condition, hbr]

/-- C3 witness: an empty condition and a parseable bracketed condition emit
the same records, and an AND-connected bracketed condition parses. -/
theorem claim_C3_witness :
    (process_singleton_row noAnswers { c3wrow with condition := "" }
        "question" 0 "en" 0 =
      process_singleton_row noAnswers
        { c3wrow with condition := "x in [1 OR 2]" } "question" 0 "en" 0) ∧
    setup_condition "a in [1 AND 2]" = Except.ok () :=
  have h := claim_C3_condition_parser_inert noAnswers c3wrow ""
    "x in [1 OR 2]" "question" 0 "en" 0 rfl rfl
  ⟨h.1, h.2 "a in [1 AND 2]" (Or.inr (Or.inl (by decide)))⟩

/-- C4 counterexample: with the non-monotone section arrangement 1, 2, 1
the pass succeeds and emits the section header for section 1 (index G0)
TWICE — the tracker only compares against the immediately preceding section
index, so a section that reappears later is re-emitted, contradicting
exactly-once for any arrangement including non-monotone ones. -/
theorem claim_C4_counterexample :
    create_survey_questions_lang noAnswers rowsC4 0 "en" = Except.ok c4recs ∧
    c4recs.count (Rec.sectionHeader 0 "en") = 2 :=
  ⟨rfl, rfl⟩

/-- Unfolding of the decimal printing for numbers of two or more digits. -/
theorem toDigitsAux_ge (n : Nat) (h : ¬ n < 10) :
    toDigitsAux n = toDigitsAux (n / 10) ++ [Nat.digitChar (n % 10)] := by
  rw [toDigitsAux]
  exact if_neg h

/-- With enough fuel, the core decimal printer agrees with the structural
reformulation. -/
theorem toDigitsCore_eq_aux : ∀ (fuel n : Nat) (ds : List Char), n < fuel →
    Nat.toDigitsCore 10 fuel n ds = toDigitsAux n ++ ds := by
  intro fuel
  induction fuel with
  | zero => intro n ds h; omega
  | succ f ih =>
    intro n ds h
    simp only [Nat.toDigitsCore]
    by_cases h0 : n / 10 = 0
    · have hn : n < 10 := by omega
      rw [if_pos h0, toDigitsAux, if_pos hn]
      have : n % 10 = n := by omega
      rw [this]
      rfl
    · have hlt : n / 10 < f := by omega
      rw [if_neg h0, ih (n / 10) _ hlt, toDigitsAux_ge n (by omega)]
      simp

/-- Digit characters decode to their value. -/
theorem digitVal_digitChar (d : Nat) (h : d < 10) :
    digitVal (Nat.digitChar d) = d := by
  interval_cases d <;> rfl

/-- Decimal printing round-trips through decoding. -/
theorem decodeDigits_toDigitsAux (n : Nat) :
    decodeDigits (toDigitsAux n) = n := by
  induction n using Nat.strong_induction_on with
  | _ n ih =>
    rw [toDigitsAux]
    split_ifs with h
    · simp [decodeDigits, digitVal_digitChar n h]
    · have h10 : n % 10 < 10 := Nat.mod_lt _ (by omega)
      have hd : n / 10 < n := Nat.div_lt_self (by omega) (by omega)
      simp only [decodeDigits, List.foldl_append, List.foldl_cons,
        List.foldl_nil]
      have := ih (n / 10) hd
      simp only [decodeDigits] at this
      rw [this, digitVal_digitChar _ h10]
      omega

/-- The decimal printing of natural numbers is injective. -/
theorem nat_repr_injective : Function.Injective Nat.repr := by
  intro a b h
  have ha : Nat.repr a = String.mk (toDigitsAux a) := by
    show (Nat.toDigits 10 a).asString = _
    rw [Nat.toDigits, toDigitsCore_eq_aux (a + 1) a [] (Nat.lt_succ_self a)]
    simp [List.asString]
  have hb : Nat.repr b = String.mk (toDigitsAux b) := by
    show (Nat.toDigits 10 b).asString = _
    rw [Nat.toDigits, toDigitsCore_eq_aux (b + 1) b [] (Nat.lt_succ_self b)]
    simp [List.asString]
  rw [ha, hb] at h
  have h' := congrArg String.data h
  simp only at h'
  rw [← decodeDigits_toDigitsAux a, h', decodeDigits_toDigitsAux]

theorem multiNames_append (a b : List Rec) :
    multiNames (a ++ b) = multiNames a ++ multiNames b := by
  simp [multiNames]

theorem multiNames_setup_answer (lines : List String) (il : Nat)
    (lg : String) : multiNames (setup_answer lines il lg) = [] := by
  simp only [multiNames, setup_answer, List.filterMap_map]
  exact List.filterMap_eq_nil_iff.mpr (fun a _ => rfl)

theorem multiNames_setup_subquestion (t lg : String) (ll : List Row)
    (tl : String) : multiNames (setup_subquestion t lg ll tl) = [] := by
  simp only [setup_subquestion, multiNames, List.filterMap_append,
    List.append_eq_nil]
  refine ⟨⟨?_, ?_⟩, ?_⟩ <;> split_ifs <;>
    simp [List.filterMap_map, List.filterMap_eq_nil_iff.mpr]

/-- Section headers carry no multi-likert name. -/
theorem multiNames_check_adding_section (s : Nat) (ns : Int) (lg : String) :
    multiNames (check_adding_section s ns lg).1 = [] := by
  simp only [check_adding_section]
  split_ifs <;> simp [multiNames]

theorem multiNames_question_false (tmpl n t lg o : String) (s : Nat) :
    multiNames [Rec.question tmpl n t lg o s false] = [] := rfl

theorem multiNames_nil : multiNames [] = [] := rfl

theorem multiNames_cons_question_false (tmpl n t lg o : String) (s : Nat)
    (rest : List Rec) :
    multiNames (Rec.question tmpl n t lg o s false :: rest) =
      multiNames rest := rfl

/-- Singleton-row processing never creates a synthesized multi-likert name
and never moves the multi-question counter. -/
theorem process_singleton_row_no_multi (ans : String → List String)
    (row : Row) (tl : String) (il : Nat) (lg : String) (c : Nat)
    (recs : List Rec) (c' : Nat)
    (h : process_singleton_row ans row tl il lg c = Except.ok (recs, c')) :
    c' = c ∧ multiNames recs = [] := by
  unfold process_singleton_row at h
  split at h
  · cases h
  · simp only [] at h
    split_ifs at h <;>
      (try simp only [setup_question, question_template] at h) <;>
      simp at h <;>
      obtain ⟨h₁, h₂⟩ := h <;>
      subst h₁ <;> subst h₂ <;>
      simp [multiNames_append, multiNames_setup_answer,
        multiNames_setup_subquestion, multiNames_question_false,
        multiNames_cons_question_false, multiNames_nil]

/-- The singleton loop never creates a synthesized multi-likert name and
never moves the counter. -/
theorem process_rows_no_multi (ans : String → List String) (tl : String)
    (il : Nat) (lg : String) : ∀ (rows : List Row) (c : Nat) (ns : Int)
    (recs : List Rec) (c' : Nat) (ns' : Int),
    process_rows ans tl il lg rows c ns = Except.ok (recs, c', ns') →
    c' = c ∧ multiNames recs = [] := by
  intro rows
  induction rows with
  | nil =>
    intro c ns recs c' ns' h
    simp only [process_rows] at h
    simp at h
    obtain ⟨h₁, h₂, h₃⟩ := h
    subst h₁; subst h₂
    exact ⟨rfl, rfl⟩
  | cons row rest ih =>
    intro c ns recs c' ns' h
    simp only [process_rows] at h
    split at h
    · cases h
    · rename_i recs1 c1 hp
      split at h
      · cases h
      · rename_i recs2 c2 ns2 hq
        simp at h
        obtain ⟨h₁, h₂, h₃⟩ := h
        subst h₁; subst h₂; subst h₃
        obtain ⟨e₁, e₂⟩ := process_singleton_row_no_multi ans row tl il lg c
          recs1 c1 hp
        obtain ⟨e₃, e₄⟩ := ih c1 _ recs2 c2 ns2 hq
        subst e₁; subst e₃
        simp [multiNames_append, multiNames_check_adding_section, e₂, e₄]

theorem multiNames_cons_question_true (tmpl n t lg o : String) (s : Nat)
    (rest : List Rec) :
    multiNames (Rec.question tmpl n t lg o s true :: rest) =
      n :: multiNames rest := rfl

/-- The synthesized multi-likert header names produced by the group fold
starting at counter `c` are exactly `likert` followed by the consecutive
counters `c, c+1, ...`, one per compound-likert group. -/
theorem process_groups_multiNames (ans : String → List String) (tl : String)
    (il : Nat) (lg : String) : ∀ (gs : List (List Row)) (c : Nat) (ns : Int)
    (recs : List Rec),
    process_groups ans tl il lg gs c ns = Except.ok recs →
    multiNames recs =
      (List.range' c (countCompoundLikert gs)).map
        (fun i => "likert" ++ toString i) := by
  intro gs
  induction gs with
  | nil =>
    intro c ns recs h
    simp only [process_groups] at h
    simp at h
    subst h
    simp [countCompoundLikert, multiNames_nil]
  | cons g gs ih =>
    intro c ns recs h
    simp only [process_groups] at h
    split at h
    · cases h
    · rename_i recs1 c1 ns1 hp
      split at h
      · cases h
      · rename_i recs2 hq
        simp at h
        subst h
        by_cases hbig : g.length > 1
        · by_cases hlik :
              toLowerStr (g.headD default).answer_format = "likert"
          · simp only [process_group] at hp
            rw [if_pos hbig, if_pos hlik] at hp
            simp only [setup_question, question_template] at hp
            simp at hp
            obtain ⟨hr, hc1, hns⟩ := hp
            subst hr; subst hc1
            have hcount : countCompoundLikert (g :: gs) =
                countCompoundLikert gs + 1 := by
              simp only [countCompoundLikert, List.filter_cons,
                decide_eq_true_eq]
              rw [if_pos ⟨hbig, hlik⟩]
              simp
            rw [hcount, List.range'_succ, List.map_cons]
            simp [multiNames_append, multiNames_check_adding_section,
              multiNames_cons_question_true, multiNames_setup_answer,
              multiNames_setup_subquestion, multiNames_nil,
              ih (c + 1) ns1 recs2 hq]
          · have hcount : countCompoundLikert (g :: gs) =
                countCompoundLikert gs := by
              simp only [countCompoundLikert, List.filter_cons,
                decide_eq_true_eq]
              rw [if_neg (fun hand => hlik hand.2)]
            by_cases hyn :
                toLowerStr (g.headD default).answer_format = "y/n/na"
            · simp only [process_group] at hp
              rw [if_pos hbig, if_neg hlik, if_pos hyn] at hp
              simp only [setup_question, question_template] at hp
              simp at hp
              obtain ⟨hr, hc1, hns⟩ := hp
              subst hr; subst hc1
              rw [hcount]
              simp [multiNames_append, multiNames_check_adding_section,
                multiNames_cons_question_false, multiNames_nil,
                ih c ns1 recs2 hq]
            · simp only [process_group] at hp
              rw [if_pos hbig, if_neg hlik, if_neg hyn] at hp
              simp at hp
              obtain ⟨hr, hc1, hns⟩ := hp
              subst hr; subst hc1
              rw [hcount]
              simp [multiNames_append, multiNames_check_adding_section,
                ih c ns1 recs2 hq]
        · have hcount : countCompoundLikert (g :: gs) =
              countCompoundLikert gs := by
            simp only [countCompoundLikert, List.filter_cons,
              decide_eq_true_eq]
            rw [if_neg (fun hand => hbig hand.1)]
          simp only [process_group] at hp
          rw [if_neg hbig] at hp
          obtain ⟨e₁, e₂⟩ := process_rows_no_multi ans tl il lg g c ns recs1
            c1 ns1 hp
          subst e₁
          rw [hcount, multiNames_append, e₂]
          simp [ih c1 ns1 recs2 hq]

/-- Prepending `likert` to the decimal printing of a counter is injective
(decimal printing of naturals is injective). -/
theorem likert_name_injective :
    Function.Injective (fun i : Nat => "likert" ++ toString i) := by
  intro a b hab
  apply nat_repr_injective
  have hd := congrArg String.data hab
  simp only at hd
  have hd' : ("likert").data ++ (Nat.repr a).data =
      ("likert").data ++ (Nat.repr b).data := hd
  exact String.ext (List.append_cancel_left hd')

/-- C7: in one language pass the multi-question counter starts at 0 (it is
reset at the start of every pass), and the synthesized multi-likert header
names are exactly `likert` followed by `0, 1, ...`, one per compound-likert
group in creation order — so the counter strictly increases by one exactly
once per compound-likert group and the names are pairwise distinct and
carry strictly increasing counters. -/
theorem claim_C7_multi_likert_names (ans : String → List String)
    (rows : List Row) (index_lang : Nat) (lang : String) (recs : List Rec)
    (h : create_survey_questions_lang ans rows index_lang lang =
      Except.ok recs) :
    multiNames recs =
      (List.range (countCompoundLikert (group_likert rows))).map
        (fun i => "likert" ++ toString i) ∧
    (multiNames recs).Pairwise (· ≠ ·) := by
  unfold create_survey_questions_lang at h
  simp only [check_adding_section] at h
  norm_num at h
  split at h
  · cases h
  · rename_i recs1 hq
    simp at h
    subst h
    have hm := process_groups_multiNames ans (get_txt_lang lang index_lang)
      index_lang lang (group_likert rows) 0 (-1) recs1 hq
    rw [List.range_eq_range']
    refine ⟨hm, ?_⟩
    rw [hm, ← List.range_eq_range']
    exact (List.nodup_range _).map likert_name_injective

/-- C7 witness: a pass with two compound-likert groups synthesizes the
distinct names likert0 and likert1. -/
theorem claim_C7_witness :
    multiNames c7recs = ["likert0", "likert1"] ∧
    (multiNames c7recs).Pairwise (· ≠ ·) := by
  have h := claim_C7_multi_likert_names ansTwo rowsC7 0 "en" c7recs rfl
  exact ⟨by rw [h.1]; rfl, h.2⟩

theorem headerIdxs_append (a b : List Rec) :
    headerIdxs (a ++ b) = headerIdxs a ++ headerIdxs b := by
  simp [headerIdxs]

theorem headerIdxs_setup_answer (lines : List String) (il : Nat)
    (lg : String) : headerIdxs (setup_answer lines il lg) = [] := by
  simp only [headerIdxs, setup_answer, List.filterMap_map]
  exact List.filterMap_eq_nil_iff.mpr (fun a _ => rfl)

theorem headerIdxs_setup_subquestion (t lg : String) (ll : List Row)
    (tl : String) : headerIdxs (setup_subquestion t lg ll tl) = [] := by
  simp only [setup_subquestion, headerIdxs, List.filterMap_append,
    List.append_eq_nil]
  refine ⟨⟨?_, ?_⟩, ?_⟩ <;> split_ifs <;>
    simp [List.filterMap_map, List.filterMap_eq_nil_iff.mpr]

theorem sectOf?_setup_answer (lines : List String) (il : Nat) (lg : String) :
    ∀ x ∈ setup_answer lines il lg, sectOf? x = none := by
  intro x hx
  simp only [setup_answer, List.mem_map] at hx
  obtain ⟨p, _, hp⟩ := hx
  subst hp
  rfl

theorem sectOf?_setup_subquestion (t lg : String) (ll : List Row)
    (tl : String) : ∀ x ∈ setup_subquestion t lg ll tl, sectOf? x = none := by
  intro x hx
  cases x with
  | sectionHeader i l => rfl
  | subquestion n t2 l => rfl
  | answer n t2 l => rfl
  | question tmpl n t2 l o s m =>
    exfalso
    simp only [setup_subquestion, List.mem_append] at hx
    rcases hx with (hx | hx) | hx <;> revert hx <;> split_ifs <;>
      simp [List.mem_map]

theorem headerIdxs_nil : headerIdxs [] = [] := rfl

theorem headerIdxs_cons_question (tmpl n t lg o : String) (s : Nat) (m : Bool)
    (rest : List Rec) :
    headerIdxs (Rec.question tmpl n t lg o s m :: rest) = headerIdxs rest :=
  rfl

/-- Singleton-row processing emits no section header, and every question
record it emits carries the row's own section. -/
theorem process_singleton_row_sect (ans : String → List String) (row : Row)
    (tl : String) (il : Nat) (lg : String) (c : Nat) (recs : List Rec)
    (c' : Nat)
    (h : process_singleton_row ans row tl il lg c = Except.ok (recs, c')) :
    headerIdxs recs = [] ∧
    ∀ x ∈ recs, ∀ s, sectOf? x = some s → s = row.sect := by
  unfold process_singleton_row at h
  split at h
  · cases h
  · simp only [] at h
    split_ifs at h <;>
      (try simp only [setup_question, question_template] at h) <;>
      simp at h <;>
      obtain ⟨h₁, h₂⟩ := h <;>
      subst h₁ <;> subst h₂ <;>
      constructor
    all_goals first
      | (simp [headerIdxs_cons_question, headerIdxs_append, headerIdxs_nil,
          headerIdxs_setup_answer, headerIdxs_setup_subquestion]
         done)
      | (intro x hx s hsx
         rcases List.mem_cons.mp hx with hq | hx2
         · subst hq
           simp [sectOf?] at hsx
           omega
         · have hnone : sectOf? x = none := by
             first
             | exact absurd hx2 (List.not_mem_nil x)
             | exact sectOf?_setup_answer _ _ _ x hx2
             | (rcases List.mem_append.mp hx2 with hx3 | hx3
                · exact sectOf?_setup_subquestion _ _ _ _ x hx3
                · exact sectOf?_setup_answer _ _ _ x hx3)
           rw [hnone] at hsx
           cases hsx)

/-- Inversion for one group: either the group is empty (nothing emitted,
index unchanged), or the group is non-empty and the chunk is the section
check's output for the group's first row followed by a body that contains
no section header and whose question records all carry the first row's
section. -/
theorem process_group_shape (ans : String → List String) (g : List Row)
    (tl : String) (il : Nat) (lg : String) (c : Nat) (ns : Int)
    (recs1 : List Rec) (c1 : Nat) (ns1 : Int)
    (h : process_group ans g tl il lg c ns = Except.ok (recs1, c1, ns1)) :
    (recs1 = [] ∧ ns1 = ns) ∨
    (g ≠ [] ∧ ∃ body,
      recs1 = (check_adding_section (g.headD default).sect ns lg).1 ++ body ∧
      ns1 = (check_adding_section (g.headD default).sect ns lg).2 ∧
      headerIdxs body = [] ∧
      ∀ x ∈ body, ∀ s, sectOf? x = some s → s = (g.headD default).sect) := by
  have hgne : g.length > 1 → g ≠ [] := by
    intro hlen hnil
    rw [hnil] at hlen
    simp at hlen
  simp only [List.headD_eq_head?_getD]
  by_cases hbig : g.length > 1
  · simp only [process_group] at h
    rw [if_pos hbig] at h
    by_cases hlik : toLowerStr (g.headD default).answer_format = "likert"
    · rw [if_pos hlik] at h
      simp only [setup_question, question_template] at h
      simp at h
      obtain ⟨hr, hc1, hns⟩ := h
      subst hr
      refine Or.inr ⟨hgne hbig, _, rfl, hns.symm, ?_, ?_⟩
      · simp [headerIdxs_cons_question, headerIdxs_append, headerIdxs_nil,
          headerIdxs_setup_answer, headerIdxs_setup_subquestion]
      · intro x hx s hsx
        rcases List.mem_cons.mp hx with hq | hx2
        · subst hq
          simp [sectOf?] at hsx
          omega
        · have hnone : sectOf? x = none := by
            rcases List.mem_append.mp hx2 with hx3 | hx3
            · exact sectOf?_setup_subquestion _ _ _ _ x hx3
            · exact sectOf?_setup_answer _ _ _ x hx3
          rw [hnone] at hsx
          cases hsx
    · rw [if_neg hlik] at h
      by_cases hyn : toLowerStr (g.headD default).answer_format = "y/n/na"
      · rw [if_pos hyn] at h
        simp only [setup_question, question_template] at h
        simp at h
        obtain ⟨hr, hc1, hns⟩ := h
        subst hr
        refine Or.inr ⟨hgne hbig, _, rfl, hns.symm, ?_, ?_⟩
        · simp [headerIdxs_cons_question, headerIdxs_nil]
        · intro x hx s hsx
          rcases List.mem_cons.mp hx with hq | hx2
          · subst hq
            simp [sectOf?] at hsx
            omega
          · exact absurd hx2 (List.not_mem_nil x)
      · rw [if_neg hyn] at h
        simp at h
        obtain ⟨hr, hc1, hns⟩ := h
        subst hr
        refine Or.inr ⟨hgne hbig, [], by simp, hns.symm, rfl, ?_⟩
        intro x hx
        exact absurd hx (List.not_mem_nil x)
  · simp only [process_group] at h
    rw [if_neg hbig] at h
    cases g with
    | nil =>
      simp only [process_rows] at h
      simp at h
      obtain ⟨h₁, h₂, h₃⟩ := h
      refine Or.inl ⟨h₁, ?_⟩
      first | exact h₃ | exact h₃.symm
    | cons r rest =>
      have hrest : rest = [] := by
        cases rest with
        | nil => rfl
        | cons b bs =>
          exfalso
          exact hbig (by simp)
      subst hrest
      simp only [process_rows] at h
      split at h
      · cases h
      · rename_i recsR cR hp
        simp at h
        obtain ⟨h₁, h₂, h₃⟩ := h
        subst h₁
        obtain ⟨e₁, e₂⟩ := process_singleton_row_sect ans r tl il lg c recsR
          cR hp
        refine Or.inr ⟨List.cons_ne_nil r [], recsR, by simp, ?_, e₁, ?_⟩
        · first | exact h₃ | exact h₃.symm
        · intro x hx s hsx
          exact e₂ x hx s hsx

/-- Splitting a decomposition of a concatenation around a marked element:
the element lies in the first part (with the prefix inside it) or in the
second part (with the prefix extending the whole first part). -/
theorem append_split_cases {α : Type} {l₁ l₂ pre post : List α} {x : α}
    (h : l₁ ++ l₂ = pre ++ x :: post) :
    (∃ post', l₁ = pre ++ x :: post') ∨
    (∃ pre', l₂ = pre' ++ x :: post ∧ pre = l₁ ++ pre') := by
  rcases List.append_eq_append_iff.mp h with ⟨a', ha₁, ha₂⟩ | ⟨c', hc₁, hc₂⟩
  · exact Or.inr ⟨a', ha₂, ha₁⟩
  · cases c' with
    | nil =>
      exact Or.inr ⟨[], by simpa using hc₂.symm, by simp [hc₁]⟩
    | cons y c'' =>
      simp only [List.cons_append, List.cons.injEq] at hc₂
      obtain ⟨hy, hpost⟩ := hc₂
      subst hy
      exact Or.inl ⟨c'', hc₁⟩

/-- The default-headed first element of a non-empty list is a member. -/
theorem headD_mem {α : Type} [Inhabited α] (g : List α) (h : g ≠ []) :
    g.headD default ∈ g := by
  cases g with
  | nil => exact absurd rfl h
  | cons a t => exact List.mem_cons_self a t

/-- A section-header record contributes its index to `headerIdxs`. -/
theorem mem_headerIdxs {recs : List Rec} {i : Int} {l : String}
    (h : Rec.sectionHeader i l ∈ recs) : i ∈ headerIdxs recs :=
  List.mem_filterMap.mpr ⟨Rec.sectionHeader i l, h, rfl⟩

/-- Strictly increasing header indices give at-most-one occurrence of any
section-header record. -/
theorem count_sectionHeader_le_one : ∀ (recs : List Rec),
    List.Pairwise (· < ·) (headerIdxs recs) →
    ∀ (i : Int) (l : String), recs.count (Rec.sectionHeader i l) ≤ 1 := by
  intro recs
  induction recs with
  | nil => intro _ i l; simp
  | cons r rest ih =>
    intro h i l
    cases r with
    | sectionHeader j l₂ =>
      have hidx : headerIdxs (Rec.sectionHeader j l₂ :: rest) =
          j :: headerIdxs rest := rfl
      rw [hidx] at h
      rw [List.count_cons]
      by_cases hji : Rec.sectionHeader j l₂ = Rec.sectionHeader i l
      · have hj : j = i := by injection hji
        subst hj
        have hnot : Rec.sectionHeader j l ∉ rest := by
          intro hmem
          have hgt := List.rel_of_pairwise_cons h (mem_headerIdxs hmem)
          omega
        rw [List.count_eq_zero.mpr hnot]
        split_ifs <;> omega
      · have hbe : (Rec.sectionHeader j l₂ == Rec.sectionHeader i l) = false :=
          beq_eq_false_iff_ne.mpr hji
        rw [hbe]
        simpa using ih (List.pairwise_cons.mp h).2 i l
    | question tmpl n t lg o s m =>
      rw [List.count_cons]
      have hidx : headerIdxs (Rec.question tmpl n t lg o s m :: rest) =
          headerIdxs rest := rfl
      rw [hidx] at h
      simpa using ih h i l
    | subquestion n t lg =>
      rw [List.count_cons]
      have hidx : headerIdxs (Rec.subquestion n t lg :: rest) =
          headerIdxs rest := rfl
      rw [hidx] at h
      simpa using ih h i l
    | answer n t lg =>
      rw [List.count_cons]
      have hidx : headerIdxs (Rec.answer n t lg :: rest) =
          headerIdxs rest := rfl
      rw [hidx] at h
      simpa using ih h i l

theorem headerIdxs_cons_sectionHeader (i : Int) (l : String)
    (rest : List Rec) :
    headerIdxs (Rec.sectionHeader i l :: rest) = i :: headerIdxs rest := rfl

/-- The section invariant of the group fold: starting from tracked index
`ns`, with the first-row sections of the (non-empty) groups monotone and
all strictly above `ns`, the emitted header indices are strictly increasing
and all above `ns`, every emitted question record carries some group's
first-row section, and every emitted question record of section `s` is
preceded by the header for `s` unless `s` was already the tracked section
on entry. -/
theorem process_groups_sections (ans : String → List String) (tl : String)
    (il : Nat) (lg : String) : ∀ (gs : List (List Row)) (ns : Int) (c : Nat)
    (recs : List Rec),
    process_groups ans tl il lg gs c ns = Except.ok recs →
    List.Pairwise (fun g₁ g₂ => g₁ ≠ [] → g₂ ≠ [] →
      (g₁.headD default).sect ≤ (g₂.headD default).sect) gs →
    (∀ g ∈ gs, g ≠ [] → ns < ((g.headD default).sect : Int)) →
    List.Pairwise (· < ·) (ns :: headerIdxs recs) ∧
    (∀ x ∈ recs, ∀ s, sectOf? x = some s →
      ∃ g, g ∈ gs ∧ g ≠ [] ∧ s = (g.headD default).sect) ∧
    (∀ s : Nat, ∀ pre x post, recs = pre ++ x :: post →
      sectOf? x = some s →
      ((s : Int) - 1 = ns) ∨ Rec.sectionHeader ((s : Int) - 1) lg ∈ pre) := by
  intro gs
  induction gs with
  | nil =>
    intro ns c recs h hm hns
    simp only [process_groups] at h
    simp at h
    subst h
    refine ⟨by simp [headerIdxs_nil], ?_, ?_⟩
    · intro x hx
      exact absurd hx (List.not_mem_nil x)
    · intro s pre x post hdec
      exact absurd hdec (by simp)
  | cons g gs ih =>
    intro ns c recs h hm hns
    simp only [process_groups] at h
    split at h
    · cases h
    · rename_i recs1 c1 ns1 hp
      split at h
      · cases h
      · rename_i recs2 hq
        simp at h
        subst h
        obtain ⟨hmh, hmt⟩ := List.pairwise_cons.mp hm
        have hnst0 : ∀ g' ∈ gs, g' ≠ [] →
            ns < ((g'.headD default).sect : Int) :=
          fun g' hg' hne => hns g' (List.mem_cons_of_mem g hg') hne
        rcases process_group_shape ans g tl il lg c ns recs1 c1 ns1 hp with
          ⟨hr1, hn1⟩ | ⟨hgne, body, hb1, hb2, hbh, hbs⟩
        · rw [hn1] at hq
          rw [hr1, List.nil_append]
          exact ih ns c1 recs2 hq hmt hnst0 |>.imp id (And.imp
            (fun B2 x hx s hsx =>
              (B2 x hx s hsx).imp (fun g' hg' =>
                ⟨List.mem_cons_of_mem g hg'.1, hg'.2⟩))
            id)
        · have hnsg : ns < ((g.headD default).sect : Int) :=
            hns g (List.mem_cons_self g gs) hgne
          by_cases hhead : ((g.headD default).sect : Int) - 1 = ns
          · have hcheck : check_adding_section (g.headD default).sect ns lg =
                ([], ns) := by
              unfold check_adding_section
              rw [if_neg (not_not_intro hhead)]
            rw [hcheck] at hb1 hb2
            simp only [List.nil_append] at hb1
            rw [hb2] at hq
            rw [hb1]
            obtain ⟨A2, B2, C2⟩ := ih ns c1 recs2 hq hmt hnst0
            refine ⟨?_, ?_, ?_⟩
            · rw [headerIdxs_append, hbh, List.nil_append]
              exact A2
            · intro x hx s hsx
              rcases List.mem_append.mp hx with hx1 | hx2
              · exact ⟨g, List.mem_cons_self g gs, hgne, hbs x hx1 s hsx⟩
              · obtain ⟨g', hg', hne, hs⟩ := B2 x hx2 s hsx
                exact ⟨g', List.mem_cons_of_mem g hg', hne, hs⟩
            · intro s pre x post hdec hsx
              rcases append_split_cases hdec with ⟨post', hx1⟩ |
                ⟨pre', h2, hpre⟩
              · have hxb : x ∈ body := by
                  rw [hx1]
                  exact List.mem_append.mpr
                    (Or.inr (List.mem_cons_self x post'))
                have hs := hbs x hxb s hsx
                subst hs
                exact Or.inl hhead
              · rcases C2 s pre' x post h2 hsx with hl | hr
                · exact Or.inl hl
                · exact Or.inr (hpre ▸ List.mem_append.mpr (Or.inr hr))
          · have hcheck : check_adding_section (g.headD default).sect ns lg =
                ([Rec.sectionHeader (((g.headD default).sect : Int) - 1) lg],
                  ((g.headD default).sect : Int) - 1) := by
              unfold check_adding_section
              rw [if_pos hhead]
            rw [hcheck] at hb1 hb2
            rw [hb2] at hq
            rw [hb1]
            have hnslt : ns < ((g.headD default).sect : Int) - 1 := by omega
            have hnst1 : ∀ g' ∈ gs, g' ≠ [] →
                ((g.headD default).sect : Int) - 1 <
                  ((g'.headD default).sect : Int) := by
              intro g' hg' hne
              have hle := hmh g' hg' hgne hne
              omega
            obtain ⟨A2, B2, C2⟩ := ih (((g.headD default).sect : Int) - 1) c1
              recs2 hq hmt hnst1
            refine ⟨?_, ?_, ?_⟩
            · simp only [List.cons_append, List.nil_append,
                headerIdxs_cons_sectionHeader, headerIdxs_append, hbh]
              refine List.pairwise_cons.mpr ⟨?_, A2⟩
              intro y hy
              rcases List.mem_cons.mp hy with hy1 | hy2
              · omega
              · have := (List.pairwise_cons.mp A2).1 y hy2
                omega
            · intro x hx s hsx
              rcases List.mem_append.mp hx with hx1 | hx2
              · rcases List.mem_cons.mp (by simpa using hx1) with hxh | hxb
                · subst hxh
                  cases hsx
                · exact ⟨g, List.mem_cons_self g gs, hgne, hbs x hxb s hsx⟩
              · obtain ⟨g', hg', hne, hs⟩ := B2 x hx2 s hsx
                exact ⟨g', List.mem_cons_of_mem g hg', hne, hs⟩
            · intro s pre x post hdec hsx
              rcases append_split_cases hdec with ⟨post', hx1⟩ |
                ⟨pre', h2, hpre⟩
              · simp only [List.cons_append, List.nil_append] at hx1
                cases pre with
                | nil =>
                  simp only [List.nil_append, List.cons.injEq] at hx1
                  obtain ⟨hxh, _⟩ := hx1
                  rw [← hxh] at hsx
                  cases hsx
                | cons p0 pre'' =>
                  simp only [List.cons_append, List.cons.injEq] at hx1
                  obtain ⟨hp0, hbody⟩ := hx1
                  have hxb : x ∈ body := by
                    rw [hbody]
                    exact List.mem_append.mpr
                      (Or.inr (List.mem_cons_self x post'))
                  have hs := hbs x hxb s hsx
                  subst hs
                  refine Or.inr ?_
                  rw [hp0]
                  exact List.mem_cons_self _ _
              · rcases C2 s pre' x post h2 hsx with hl | hr
                · refine Or.inr ?_
                  rw [hpre, hl]
                  refine List.mem_append.mpr (Or.inl ?_)
                  simp only [List.cons_append, List.nil_append]
                  exact List.mem_cons_self _ body
                · exact Or.inr (hpre ▸ List.mem_append.mpr (Or.inr hr))

/-- C4 (amended): within one language pass over rows with 1-based,
non-decreasing section numbers, the pipeline emits at most one section
header per section; every emitted question record of section `s` is
preceded by the header for `s`; hence for every section that has a question
record the header is emitted exactly once and precedes all of that
section's question records.  (The counterexample shows exactly-once fails
for non-monotone arrangements, which the original claim included.) -/
theorem claim_C4_section_headers (ans : String → List String)
    (rows : List Row) (index_lang : Nat) (lang : String) (recs : List Rec)
    (h : create_survey_questions_lang ans rows index_lang lang =
      Except.ok recs)
    (hpos : ∀ r ∈ rows, 1 ≤ r.sect)
    (hmono : List.Pairwise (· ≤ ·) (rows.map Row.sect)) :
    (∀ s : Nat, recs.count (Rec.sectionHeader ((s : Int) - 1) lang) ≤ 1) ∧
    (∀ s : Nat, ∀ pre x post, recs = pre ++ x :: post →
      sectOf? x = some s →
      Rec.sectionHeader ((s : Int) - 1) lang ∈ pre) ∧
    (∀ s : Nat, (∃ x ∈ recs, sectOf? x = some s) →
      recs.count (Rec.sectionHeader ((s : Int) - 1) lang) = 1) := by
  have hs0 : check_adding_section 0 (-1) lang = ([], -1) := by
    unfold check_adding_section
    rw [if_neg (by decide)]
  simp only [create_survey_questions_lang, hs0] at h
  split at h
  · cases h
  · rename_i recs1 hq
    simp at h
    subst h
    by_cases hnil : rows = []
    · subst hnil
      simp only [group_likert, group_likert_go, process_groups, process_group,
        process_rows] at hq
      simp at hq
      subst hq
      refine ⟨fun s => by simp, fun s pre x post hdec => absurd hdec (by simp),
        fun s hex => absurd hex (by simp)⟩
    · have hgne : ∀ g ∈ group_likert rows, g ≠ [] :=
        group_likert_go_nonempty rows ⟨none, none, none, []⟩ (Or.inr hnil)
      have hflat : (group_likert rows).flatten = rows := by
        have hj := group_likert_go_join rows ⟨none, none, none, []⟩
        simpa [group_likert] using hj
      have hmem : ∀ g ∈ group_likert rows, g ≠ [] →
          (g.headD default) ∈ rows := by
        intro g hg hne
        rw [← hflat]
        exact List.mem_flatten.mpr ⟨g, hg, headD_mem g hne⟩
      have hm : List.Pairwise (fun g₁ g₂ => g₁ ≠ [] → g₂ ≠ [] →
          (g₁.headD default).sect ≤ (g₂.headD default).sect)
          (group_likert rows) := by
        have hrowsP : List.Pairwise (fun a b : Row => a.sect ≤ b.sect) rows :=
          List.pairwise_map.mp hmono
        rw [← hflat] at hrowsP
        exact (List.pairwise_flatten.mp hrowsP).2.imp
          (fun hab hne₁ hne₂ => hab _ (headD_mem _ hne₁) _ (headD_mem _ hne₂))
      have hns : ∀ g ∈ group_likert rows, g ≠ [] →
          (-1 : Int) < ((g.headD default).sect : Int) := by
        intro g hg hne
        have h1 := hpos _ (hmem g hg hne)
        omega
      obtain ⟨A, B, C⟩ := process_groups_sections ans
        (get_txt_lang lang index_lang) index_lang lang (group_likert rows)
        (-1) 0 recs1 hq hm hns
      have part1 : ∀ s : Nat,
          recs1.count (Rec.sectionHeader ((s : Int) - 1) lang) ≤ 1 :=
        fun s => count_sectionHeader_le_one recs1
          (List.pairwise_cons.mp A).2 _ lang
      have part2 : ∀ s : Nat, ∀ pre x post, recs1 = pre ++ x :: post →
          sectOf? x = some s →
          Rec.sectionHeader ((s : Int) - 1) lang ∈ pre := by
        intro s pre x post hdec hsx
        rcases C s pre x post hdec hsx with hl | hr
        · exfalso
          have hx : x ∈ recs1 := by
            rw [hdec]
            exact List.mem_append_cons_self
          obtain ⟨g, hg, hne, hs⟩ := B x hx s hsx
          have hp1 := hpos _ (hmem g hg hne)
          omega
        · exact hr
      refine ⟨part1, part2, ?_⟩
      intro s hex
      obtain ⟨x, hx, hsx⟩ := hex
      obtain ⟨pre, post, hdec⟩ := List.append_of_mem hx
      have hhdr := part2 s pre x post hdec hsx
      have hmemr : Rec.sectionHeader ((s : Int) - 1) lang ∈ recs1 := by
        rw [hdec]
        exact List.mem_append_of_mem_left _ hhdr
      have h1 : 0 < recs1.count (Rec.sectionHeader ((s : Int) - 1) lang) :=
        List.count_pos_iff.mpr hmemr
      have h2 := part1 s
      omega

/-- C4 witness: a monotone run emits the header for section 1 exactly
once. -/
theorem claim_C4_witness :
    create_survey_questions_lang ansTwo rowsC7 0 "en" = Except.ok c7recs ∧
    c7recs.count (Rec.sectionHeader ((1 : Int) - 1) "en") = 1 := by
  have h := claim_C4_section_headers ansTwo rowsC7 0 "en" c7recs rfl
    (by decide) (by decide)
  exact ⟨rfl, h.2.2 1
    ⟨Rec.question "likert_question" "likert0" "" "en" "N" 1 true,
      by decide, rfl⟩⟩

/-- C9: the answer emitter never fails and emits exactly one record per
option line, in file order, named by its 1-based position; the record text
is the semicolon-separated field at the requested translation index, or —
when that index is out of range for the line — the base-language field at
index 0, with surrounding quote characters stripped in either case. -/
theorem claim_C9_answer_emitter (answer_lines : List String)
    (index_lang : Nat) (lang : String) :
    (setup_answer answer_lines index_lang lang).length =
      answer_lines.length ∧
    ∀ i, i < answer_lines.length →
      (setup_answer answer_lines index_lang lang).getD i
          (Rec.answer "" "" "") =
        Rec.answer (toString (i + 1))
          (if index_lang <
              (splitStr (answer_lines.getD i "") ";").length then
            stripQuotes ((splitStr (answer_lines.getD i "") ";").getD
              index_lang "")
          else
            stripQuotes ((splitStr (answer_lines.getD i "") ";").getD 0 ""))
          lang := by
  constructor
  · simp [setup_answer]
  · intro i hi
    have hget : answer_lines[i]? = some answer_lines[i] :=
      List.getElem?_eq_getElem hi
    simp [setup_answer, List.getD_eq_getElem?_getD, List.getElem?_map,
      List.getElem?_enum, hget]

/-- C9 witness: requesting translation index 2 of a line with only two
fields falls back to the quote-stripped base-language text. -/
theorem claim_C9_witness :
    (setup_answer ["\"Yes\";\"Oui\"", "No"] 2 "fr").length = 2 ∧
    (setup_answer ["\"Yes\";\"Oui\"", "No"] 2 "fr").getD 0
        (Rec.answer "" "" "") =
      Rec.answer "1" "Yes" "fr" := by
  have h := claim_C9_answer_emitter ["\"Yes\";\"Oui\"", "No"] 2 "fr"
  refine ⟨h.1, ?_⟩
  rw [h.2 0 (by decide)]
  rfl
